import Mathlib

/-!
Verification of the mechanical binary marble counter
(src/marble_counter.py and src/single_counter.py).

Shallow embedding conventions:
* All angles are measured in degrees. The Python source stores body angles
  in radians and converts with `math.radians` / `math.degrees` exactly at the
  pymunk boundary; working uniformly in degrees removes the (exact) unit
  conversion without changing any comparison, since the readout compares
  `math.degrees(m.angle)` against the degree thresholds 5 / -5 and the limit
  joint is constructed from `math.radians(35)`.
* Scalar quantities (coordinates, angles, masses) are rationals: the source
  manipulates them only with +, -, *, comparisons and exact constants.
* The pymunk physics engine is an external collaborator: a physics step is an
  arbitrary update of the engine-owned quantities (body positions, mechanism
  angles) that neither creates nor destroys bodies.  Engine-owned values
  therefore appear as per-frame inputs to the embedded run loop.
-/

namespace MarbleCounter

/-! ## Configuration constants (marble_counter.py lines 6-9, 24, 119-120) -/

def WIDTH : ℚ := 1000
def HEIGHT : ℚ := 1000

/-- `tube_x = WIDTH - 200` from `create_boundaries` (line 24). -/
def tube_x : ℚ := WIDTH - 200

/-- `gate_closed_pos = (tube_x, 103)` (line 119). -/
def gate_closed_pos : ℚ × ℚ := (tube_x, 103)

/-- `gate_open_pos = (tube_x + 40, 103)` (line 120). -/
def gate_open_pos : ℚ × ℚ := (tube_x + 40, 103)

/-! ## Gate controller state (marble_counter.py lines 146-147, 159-168) -/

/-- The mutable state the run loop keeps for the gate: the kinematic gate
body's position, the countdown `gate_timer`, and the launch counter
`total_marbles_launched`. -/
structure GateState where
  position : ℚ × ℚ
  gate_timer : ℤ
  total_marbles_launched : ℕ
  deriving Repr, DecidableEq

/-- Initial values: `gate_timer = 0`, `total_marbles_launched = 0`, gate
created at `gate_closed_pos` (lines 121, 146-147). -/
def initGate : GateState :=
  { position := gate_closed_pos, gate_timer := 0, total_marbles_launched := 0 }

/-- The SPACE-key handler (lines 160-163):
`gate_body.position = gate_open_pos; gate_timer = 15;
 total_marbles_launched += 1`. -/
def pressSpace (s : GateState) : GateState :=
  { position := gate_open_pos
    gate_timer := 15
    total_marbles_launched := s.total_marbles_launched + 1 }

/-- The per-frame timer update (lines 165-168):
`if gate_timer > 0: gate_timer -= 1; if gate_timer == 0:
 gate_body.position = gate_closed_pos`. -/
def gateTick (s : GateState) : GateState :=
  if s.gate_timer > 0 then
    if s.gate_timer - 1 = 0 then
      { s with gate_timer := s.gate_timer - 1, position := gate_closed_pos }
    else { s with gate_timer := s.gate_timer - 1 }
  else s

/-- One iteration of the event-handling part of the run loop followed by the
timer update: the event queue may contain any number `presses` of SPACE
keydowns, each handled by `pressSpace`, after which the timer block runs
once per frame. -/
def gateFrame (presses : ℕ) (s : GateState) : GateState :=
  gateTick (pressSpace^[presses] s)

/-- The gate-relevant part of the run loop over a whole run: one entry of
`frames` per iteration, giving the number of SPACE presses drained from the
event queue that frame. -/
def gateRun (frames : List ℕ) (s : GateState) : GateState :=
  frames.foldl (fun st n => gateFrame n st) s

/-! ## Bit value classification and counter readout
(marble_counter.py lines 174-178, single_counter.py lines 141-143) -/

/-- The three-valued logical bit state of a mechanism, derived from its
angle: `one` / `zero` at the two stable limits, `transient` in the ±5° deadband
(single_counter.py line 143 renders the deadband as "..."). -/
inductive BitValue where
  | zero
  | one
  | transient
  deriving Repr, DecidableEq

/-- Classification of an angle (in degrees) into the three-valued bit state:
`angle > 5` reads 1, `angle < -5` reads 0, the deadband is undefined
(single_counter.py line 143). -/
def classifyBit (angleDeg : ℚ) : BitValue :=
  if angleDeg > 5 then .one else if angleDeg < -5 then .zero else .transient

/-- The per-mechanism display value used by the integer readout:
`val = 1 if angle > 5 else 0` (marble_counter.py line 177). -/
def displayBit (angleDeg : ℚ) : ℕ :=
  if angleDeg > 5 then 1 else 0

/-- The readout accumulation `binary_val += val * (2**i)` over
`enumerate(mechanisms)` (lines 174-178), with `i` the running index. -/
def binary_val_from (angles : List ℚ) (i : ℕ) : ℕ :=
  match angles with
  | [] => 0
  | a :: rest => displayBit a * 2 ^ i + binary_val_from rest (i + 1)

/-- The integer counter readout of one frame: the fold above started at
index 0 (bit 0 least significant). -/
def binary_val (angles : List ℚ) : ℕ :=
  binary_val_from angles 0

/-- The readout over a sequence of frames: the run loop recomputes
`binary_val` from scratch from the current mechanism angles every frame
(lines 174-178 are inside the `while running` loop and `binary_val` is
re-initialised to 0 each iteration). -/
def readoutTrace (frames : List (List ℚ)) : List ℕ :=
  frames.map binary_val

/-- Written from the spec's words, for comparison with `binary_val`:
`integer_value = Σ bit_value(mechanism_i) * 2^i` over the ordered sequence,
index 0 least significant. -/
def specPositionalSum (bits : List ℕ) : ℕ :=
  (List.zipWith (fun b i => b * 2 ^ i) bits (List.range bits.length)).sum

/-! ## Bit mechanism construction (marble_counter.py lines 61-95) -/

/-- A rotational limit joint between the static body and the mechanism,
with its angular bounds (degrees; the source passes
`-math.radians(35), math.radians(35)`). -/
structure RotaryLimitJoint where
  minAngle : ℚ
  maxAngle : ℚ
  deriving Repr, DecidableEq

/-- The data `create_counter_mechanism` registers with the space for one bit
mechanism: the dynamic compound body (mass, centre of gravity, its five
polygon shapes in body-local coordinates, current angle) together with the
joints tying it to the static world. -/
structure Mechanism where
  position : ℚ × ℚ
  mass : ℚ
  center_of_gravity : ℚ × ℚ
  angle : ℚ
  shapes : List (List (ℚ × ℚ))
  pivotAnchors : List (ℚ × ℚ)
  rotaryLimits : List RotaryLimitJoint
  deriving Repr, DecidableEq

/-- `h_bar_pts` (line 64). -/
def h_bar_pts : List (ℚ × ℚ) := [(-50, -3), (50, -3), (50, 3), (-50, 3)]

/-- `v_bar_pts` (line 65). -/
def v_bar_pts : List (ℚ × ℚ) := [(-3, 0), (3, 0), (3, -65), (-3, -65)]

/-- `tip_pts` (line 66). -/
def tip_pts : List (ℚ × ℚ) := [(-15, -65), (15, -65), (0, -85)]

/-- Anti-jam slope polygons (lines 81-82). -/
def slope_l_pts : List (ℚ × ℚ) := [(-3, -3), (-20, -3), (-3, -20)]

def slope_r_pts : List (ℚ × ℚ) := [(3, -3), (20, -3), (3, -20)]

/-- `create_counter_mechanism(space, position)` (lines 61-95): builds the
compound body (mass 2, centre of gravity `(0, -20)`, five shapes), adds one
`PivotJoint(space.static_body, body, position)` and one
`RotaryLimitJoint(space.static_body, body, -radians(35), radians(35))`.
A fresh pymunk body has angle 0. -/
def create_counter_mechanism (position : ℚ × ℚ) : Mechanism :=
  { position := position
    mass := 2
    center_of_gravity := (0, -20)
    angle := 0
    shapes := [h_bar_pts, v_bar_pts, tip_pts, slope_l_pts, slope_r_pts]
    pivotAnchors := [position]
    rotaryLimits := [{ minAngle := -35, maxAngle := 35 }] }

/-- An angle satisfies a rotational limit joint when it lies within the
joint's configured bounds. -/
def satisfiesLimit (j : RotaryLimitJoint) (θ : ℚ) : Prop :=
  j.minAngle ≤ θ ∧ θ ≤ j.maxAngle

/-! ## Compound-shape geometry (for the centre-of-gravity claim) -/

/-- Absolute value of a rational, written as an executable conditional. -/
def absQ (x : ℚ) : ℚ :=
  if x < 0 then -x else x

/-- The cyclically consecutive vertex pairs of a polygon. -/
def polyEdges (pts : List (ℚ × ℚ)) : List ((ℚ × ℚ) × (ℚ × ℚ)) :=
  pts.zip (pts.tail ++ pts.take 1)

/-- Twice the signed (shoelace) area of a polygon given by its vertex
list. -/
def polyArea2 (pts : List (ℚ × ℚ)) : ℚ :=
  ((polyEdges pts).map (fun e => e.1.1 * e.2.2 - e.2.1 * e.1.2)).sum

/-- The geometric centroid of one polygon (the standard shoelace centroid
formula). -/
def polyCentroid (pts : List (ℚ × ℚ)) : ℚ × ℚ :=
  (((polyEdges pts).map
      (fun e => (e.1.1 + e.2.1) * (e.1.1 * e.2.2 - e.2.1 * e.1.2))).sum
      / (3 * polyArea2 pts),
   ((polyEdges pts).map
      (fun e => (e.1.2 + e.2.2) * (e.1.1 * e.2.2 - e.2.1 * e.1.2))).sum
      / (3 * polyArea2 pts))

/-- The geometric centroid of a compound shape: per-polygon centroids
weighted by absolute area. -/
def compoundCentroid (polys : List (List (ℚ × ℚ))) : ℚ × ℚ :=
  (((polys.map (fun p => (absQ (polyArea2 p) / 2) * (polyCentroid p).1)).sum)
      / ((polys.map (fun p => absQ (polyArea2 p) / 2)).sum),
   ((polys.map (fun p => (absQ (polyArea2 p) / 2) * (polyCentroid p).2)).sum)
      / ((polys.map (fun p => absQ (polyArea2 p) / 2)).sum))

/-! ## Marbles and the world (marble_counter.py lines 97-107, 149-152) -/

/-- `radius = 12` (line 99). -/
def marble_radius : ℚ := 12

/-- The world state the run loop acts on, beyond the static geometry: the
gate state and the dynamic marble bodies currently in the space (by
position; further engine-owned attributes play no role in the claims). -/
structure WorldState where
  gate : GateState
  marbles : List (ℚ × ℚ)
  deriving Repr, DecidableEq

/-- `spawn_marble(space, position)` (lines 97-107): creates one dynamic
circular body at `position` and adds it to the space; nothing is removed. -/
def spawn_marble (w : WorldState) (position : ℚ × ℚ) : WorldState :=
  { w with marbles := w.marbles ++ [position] }

/-- The ten pre-seeded marble spawn positions
`(tube_x, 80 - i * 26)` for `i in range(10)` (lines 150-152). -/
def initMarblePositions : List (ℚ × ℚ) :=
  (List.range 10).map (fun i => (tube_x, 80 - (i : ℚ) * 26))

/-- The world right before the run loop starts: gate initialised, the ten
marbles spawned in order. -/
def initWorld : WorldState :=
  initMarblePositions.foldl spawn_marble { gate := initGate, marbles := [] }

/-- `bits_pos` (lines 126-131). -/
def bits_pos : List (ℚ × ℚ) :=
  [(WIDTH - 180, 220), (WIDTH - 430, 450), (WIDTH - 680, 680), (WIDTH - 930, 910)]

/-- The mechanisms as set up by `main` (lines 133-137): each created by
`create_counter_mechanism` and then started at `angle = -radians(35)`. -/
def initMechanisms : List Mechanism :=
  bits_pos.map (fun p => { create_counter_mechanism p with angle := -35 })

/-- One full iteration of the run loop as far as the claims observe it:
drain `step.1` SPACE events, run the gate timer block, then let the physics
engine advance the space.  The engine is external: that frame's physics
update `step.2` may move every body (it rewrites the marble position list)
but the loop body itself neither spawns nor removes marbles. -/
def runFrame (step : ℕ × (List (ℚ × ℚ) → List (ℚ × ℚ)))
    (w : WorldState) : WorldState :=
  { gate := gateFrame step.1 w.gate, marbles := step.2 w.marbles }

/-- The run loop over a whole run, one entry of `steps` per iteration. -/
def runLoop (steps : List (ℕ × (List (ℚ × ℚ) → List (ℚ × ℚ))))
    (w : WorldState) : WorldState :=
  steps.foldl (fun st e => runFrame e st) w

/-! ## Helper lemmas about the readout -/

/-- The numeric value a classified bit contributes to the display sum. -/
def bitToNat : BitValue → ℕ
  | .one => 1
  | _ => 0

theorem displayBit_eq_bitToNat (a : ℚ) : displayBit a = bitToNat (classifyBit a) := by
  by_cases h1 : a > 5
  · simp [displayBit, classifyBit, bitToNat, h1]
  · by_cases h2 : a < -5 <;> simp [displayBit, classifyBit, bitToNat, h1, h2]

theorem binary_val_from_succ (angles : List ℚ) (i : ℕ) :
    binary_val_from angles (i + 1) = 2 * binary_val_from angles i := by
  induction angles generalizing i with
  | nil => simp [binary_val_from]
  | cons a rest ih =>
    simp only [binary_val_from, ih]
    ring

theorem binary_val_cons (a : ℚ) (angles : List ℚ) :
    binary_val (a :: angles) = displayBit a + 2 * binary_val angles := by
  simp only [binary_val, binary_val_from, pow_zero, mul_one, binary_val_from_succ]

theorem zipWith_pow_succ_sum (bs : List ℕ) (l : List ℕ) :
    (List.zipWith (fun b i => b * 2 ^ (i + 1)) bs l).sum
      = 2 * (List.zipWith (fun b i => b * 2 ^ i) bs l).sum := by
  induction bs generalizing l with
  | nil => simp
  | cons b rest ih =>
    cases l with
    | nil => simp
    | cons i l' =>
      simp only [List.zipWith_cons_cons, List.sum_cons, ih]
      ring

theorem specSum_cons (b : ℕ) (bs : List ℕ) :
    specPositionalSum (b :: bs) = b + 2 * specPositionalSum bs := by
  simp only [specPositionalSum, List.length_cons, List.range_succ_eq_map,
    List.zipWith_cons_cons, List.sum_cons, pow_zero, mul_one]
  congr 1
  rw [List.zipWith_map_right]
  rw [show (fun (b : ℕ) (i : ℕ) => b * 2 ^ (i.succ))
        = (fun (b : ℕ) (i : ℕ) => b * 2 ^ (i + 1)) from rfl]
  exact zipWith_pow_succ_sum bs (List.range bs.length)

/-! ## Helper lemmas about the gate -/

theorem gateTick_total (s : GateState) :
    (gateTick s).total_marbles_launched = s.total_marbles_launched := by
  unfold gateTick
  split
  · split <;> rfl
  · rfl

theorem gateTick_timer (s : GateState) (h : 0 < s.gate_timer) :
    (gateTick s).gate_timer = s.gate_timer - 1 := by
  unfold gateTick
  rw [if_pos h]
  split <;> rfl

theorem gateFrame_zero (s : GateState) : gateFrame 0 s = gateTick s := by
  rw [gateFrame, Function.iterate_zero_apply]

theorem gateTick_pos_step (s : GateState) (k : ℕ) (hk : s.gate_timer = (k : ℤ) + 1) :
    gateTick s = if k = 0 then
        { s with gate_timer := 0, position := gate_closed_pos }
      else { s with gate_timer := (k : ℤ) } := by
  unfold gateTick
  rw [if_pos (by omega)]
  by_cases h : k = 0
  · subst h
    rw [if_pos (by omega), if_pos rfl]
    simp [hk]
  · rw [if_neg (by omega), if_neg h]
    simp [hk]

/-- A gate with `gate_timer = k > 0` returns to `gate_closed_pos` with the
timer at zero after exactly `k` frames with no presses. -/
theorem gateRun_countdown (k : ℕ) (s : GateState) (hk : s.gate_timer = (k : ℤ))
    (h0 : 0 < k) :
    (gateRun (List.replicate k 0) s).gate_timer = 0 ∧
    (gateRun (List.replicate k 0) s).position = gate_closed_pos := by
  induction k generalizing s with
  | zero => omega
  | succ n ih =>
    simp only [List.replicate_succ, gateRun, List.foldl_cons]
    rw [gateFrame_zero, gateTick_pos_step s n (by omega)]
    by_cases hn : n = 0
    · subst hn
      simp [gateRun, List.replicate]
    · rw [if_neg hn]
      exact ih _ rfl (by omega)

theorem pressSpace_iterate_total (n : ℕ) (s : GateState) :
    (pressSpace^[n] s).total_marbles_launched = s.total_marbles_launched + n := by
  induction n generalizing s with
  | zero => simp
  | succ k ih =>
    rw [Function.iterate_succ_apply, ih]
    simp [pressSpace]
    omega

theorem gateFrame_total (n : ℕ) (s : GateState) :
    (gateFrame n s).total_marbles_launched = s.total_marbles_launched + n := by
  rw [gateFrame, gateTick_total, pressSpace_iterate_total]

theorem gateRun_total_mono (frames : List ℕ) (s : GateState) :
    s.total_marbles_launched ≤ (gateRun frames s).total_marbles_launched := by
  induction frames generalizing s with
  | nil => simp [gateRun]
  | cons n rest ih =>
    simp only [gateRun, List.foldl_cons] at *
    exact le_trans (by rw [gateFrame_total]; omega) (ih _)

/-- The run-loop invariant `0 ≤ gate_timer ≤ 15`. -/
def timerInv (s : GateState) : Prop :=
  0 ≤ s.gate_timer ∧ s.gate_timer ≤ 15

theorem timerInv_press (s : GateState) : timerInv (pressSpace s) := by
  constructor <;> simp [pressSpace]

theorem timerInv_iterate (n : ℕ) (s : GateState) (h : timerInv s) :
    timerInv (pressSpace^[n] s) := by
  cases n with
  | zero => simpa using h
  | succ k =>
    rw [Function.iterate_succ_apply']
    exact timerInv_press _

theorem timerInv_tick (s : GateState) (h : timerInv s) : timerInv (gateTick s) := by
  rcases h with ⟨h1, h2⟩
  unfold timerInv gateTick
  split
  · split <;> refine ⟨?_, ?_⟩ <;> dsimp only <;> omega
  · exact ⟨h1, h2⟩

/-- Appending a list of spawn calls: `spawn_marble` adds exactly the given
positions, in order, to the space. -/
theorem spawn_foldl (ps : List (ℚ × ℚ)) (w : WorldState) :
    (ps.foldl spawn_marble w).marbles = w.marbles ++ ps := by
  induction ps generalizing w with
  | nil => simp
  | cons p rest ih =>
    simp only [List.foldl_cons, ih, spawn_marble]
    simp

/-! ## The claims -/

/-- C1: for every ordered sequence of bit mechanisms whose angles classify
to the bit values `bits` (each 0 or 1), the per-frame counter readout
`binary_val` equals the positional sum Σ bits_i · 2^i with index 0 least
significant; in particular bit values [1,0,1,1] decode to 13. -/
theorem counter_readout_positional (angles : List ℚ) (bits : List ℕ)
    (hclass : angles.map classifyBit
      = bits.map (fun b => if b = 1 then BitValue.one else BitValue.zero))
    (hbit : ∀ b ∈ bits, b ≤ 1) :
    binary_val angles = specPositionalSum bits ∧
    (bits = [1, 0, 1, 1] → binary_val angles = 13) := by
  have main : binary_val angles = specPositionalSum bits := by
    induction angles generalizing bits with
    | nil =>
      cases bits with
      | nil => simp [binary_val, binary_val_from, specPositionalSum]
      | cons b bs => simp at hclass
    | cons a rest ih =>
      cases bits with
      | nil => simp at hclass
      | cons b bs =>
        simp only [List.map_cons, List.cons.injEq] at hclass
        have hrest := ih bs hclass.2 (fun x hx => hbit x (List.mem_cons_of_mem _ hx))
        rw [binary_val_cons, specSum_cons, hrest, displayBit_eq_bitToNat, hclass.1]
        have hb : b ≤ 1 := hbit b (List.mem_cons_self _ _)
        interval_cases b <;> simp [bitToNat]
  exact ⟨main, fun hb => by rw [main, hb]; decide⟩

/-- Witness for C1 at the spec's own example: angles [35°,−35°,35°,35°]
classify to bits [1,0,1,1] and read out as 13. -/
theorem counter_readout_positional_witness :
    binary_val [35, -35, 35, 35] = specPositionalSum [1, 0, 1, 1] ∧
    binary_val [35, -35, 35, 35] = 13 :=
  ⟨(counter_readout_positional [35, -35, 35, 35] [1, 0, 1, 1]
      (by decide) (by decide)).1,
   (counter_readout_positional [35, -35, 35, 35] [1, 0, 1, 1]
      (by decide) (by decide)).2 rfl⟩

/-- C2: a launch from any state moves the gate to `gate_open_pos` and arms a
15-step countdown; a launch while already open re-arms the countdown to 15
in the same single open state; each step the timer is decremented when
positive, the position returning to `gate_closed_pos` exactly when it
reaches zero; 15 press-free frames after a launch the gate is back at
`gate_closed_pos`. -/
theorem gate_controller_correct (s t : GateState) (ht : 0 < t.gate_timer) :
    (pressSpace s).position = gate_open_pos ∧
    (pressSpace s).gate_timer = 15 ∧
    (pressSpace (pressSpace s)).position = gate_open_pos ∧
    (pressSpace (pressSpace s)).gate_timer = 15 ∧
    (gateTick t).gate_timer = t.gate_timer - 1 ∧
    (t.gate_timer = 1 → (gateTick t).position = gate_closed_pos) ∧
    (gateRun (List.replicate 15 0) (pressSpace s)).position = gate_closed_pos ∧
    (gateRun (List.replicate 15 0) (pressSpace s)).gate_timer = 0 := by
  refine ⟨rfl, rfl, rfl, rfl, gateTick_timer t ht, ?_, ?_, ?_⟩
  · intro h1
    unfold gateTick
    rw [if_pos ht, if_pos (by omega)]
  · exact (gateRun_countdown 15 (pressSpace s) rfl (by norm_num)).2
  · exact (gateRun_countdown 15 (pressSpace s) rfl (by norm_num)).1

/-- Witness for C2 from the initial gate state. -/
theorem gate_controller_correct_witness :
    (pressSpace initGate).gate_timer = 15 ∧
    (gateTick { initGate with gate_timer := 1 }).position = gate_closed_pos ∧
    (gateRun (List.replicate 15 0) (pressSpace initGate)).position = gate_closed_pos :=
  ⟨(gate_controller_correct initGate { initGate with gate_timer := 1 } (by decide)).2.1,
   (gate_controller_correct initGate { initGate with gate_timer := 1 }
      (by decide)).2.2.2.2.2.1 rfl,
   (gate_controller_correct initGate { initGate with gate_timer := 1 }
      (by decide)).2.2.2.2.2.2.1⟩

/-- C3: the classified bit value is 1 above +5°, 0 below −5° and undefined
in the deadband; the integer readout is recomputed from the current angles
alone each frame, and a deadband mechanism contributes 0 to the sum. -/
theorem bit_classification_deadband (a : ℚ) (rest : List ℚ) :
    (a > 5 → classifyBit a = BitValue.one) ∧
    (a < -5 → classifyBit a = BitValue.zero) ∧
    (-5 ≤ a → a ≤ 5 → classifyBit a = BitValue.transient) ∧
    (∀ prior : List (List ℚ),
      (readoutTrace (prior ++ [a :: rest])).getLast? = some (binary_val (a :: rest))) ∧
    (classifyBit a = BitValue.transient → binary_val (a :: rest) = 2 * binary_val rest) := by
  refine ⟨?_, ?_, ?_, ?_, ?_⟩
  · intro h; simp [classifyBit, h]
  · intro h
    have hx : ¬ a > 5 := by linarith
    simp [classifyBit, hx, h]
  · intro h1 h2
    have hx : ¬ a > 5 := by linarith
    have hy : ¬ a < -5 := by linarith
    simp [classifyBit, hx, hy]
  · intro prior
    simp [readoutTrace, List.map_append, List.getLast?_concat]
  · intro h
    rw [binary_val_cons, displayBit_eq_bitToNat, h]
    simp [bitToNat]

/-- Witness for C3 at angles 6°, −6° and 0°. -/
theorem bit_classification_deadband_witness :
    classifyBit 6 = BitValue.one ∧ classifyBit (-6) = BitValue.zero ∧
    classifyBit 0 = BitValue.transient ∧ binary_val [0, 35] = 2 * binary_val [35] :=
  ⟨(bit_classification_deadband 6 []).1 (by norm_num),
   (bit_classification_deadband (-6) []).2.1 (by norm_num),
   (bit_classification_deadband 0 []).2.2.1 (by norm_num) (by norm_num),
   (bit_classification_deadband 0 [35]).2.2.2.2
     ((bit_classification_deadband 0 [35]).2.2.1 (by norm_num) (by norm_num))⟩

/-- C4: every mechanism built by `create_counter_mechanism` has exactly one
pivot joint to the static world (anchored at its pivot position) and
exactly one rotational limit joint with bounds −35° and +35°, so any angle
admitted by its limit joints lies within ±35°. -/
theorem mechanism_joints_and_limits (pos : ℚ × ℚ) (θ : ℚ)
    (hθ : ∀ j ∈ (create_counter_mechanism pos).rotaryLimits, satisfiesLimit j θ) :
    (create_counter_mechanism pos).pivotAnchors = [pos] ∧
    (create_counter_mechanism pos).pivotAnchors.length = 1 ∧
    (create_counter_mechanism pos).rotaryLimits.length = 1 ∧
    (create_counter_mechanism pos).rotaryLimits
      = [{ minAngle := -35, maxAngle := 35 }] ∧
    (-35 ≤ θ ∧ θ ≤ 35) := by
  refine ⟨rfl, rfl, rfl, rfl, ?_⟩
  exact hθ { minAngle := -35, maxAngle := 35 } (by simp [create_counter_mechanism])

/-- Witness for C4 at the first mechanism position with angle 0°. -/
theorem mechanism_joints_and_limits_witness :
    (create_counter_mechanism (820, 220)).pivotAnchors.length = 1 ∧
    (create_counter_mechanism (820, 220)).rotaryLimits.length = 1 ∧
    ((-35 : ℚ) ≤ 0 ∧ (0 : ℚ) ≤ 35) :=
  ⟨(mechanism_joints_and_limits (820, 220) 0
      (by intro j hj; simp [create_counter_mechanism] at hj; subst hj
          exact ⟨by norm_num, by norm_num⟩)).2.1,
   (mechanism_joints_and_limits (820, 220) 0
      (by intro j hj; simp [create_counter_mechanism] at hj; subst hj
          exact ⟨by norm_num, by norm_num⟩)).2.2.1,
   (mechanism_joints_and_limits (820, 220) 0
      (by intro j hj; simp [create_counter_mechanism] at hj; subst hj
          exact ⟨by norm_num, by norm_num⟩)).2.2.2.2⟩

/-- C5 counterexample: at the concrete in-band angle 0° the frame readout
is 0 whether the mechanism read 1 (angle 35°) or 0 (angle −35°) the frame
before — the classification of a frame never depends on anything but that
frame's angle, so there is no hysteresis band. -/
theorem readout_no_hysteresis_counterexample :
    readoutTrace [[35], [0]] = [1, 0] ∧
    readoutTrace [[-35], [0]] = [0, 0] ∧
    (readoutTrace [[35], [0]]).getLast? = (readoutTrace [[-35], [0]]).getLast? := by
  refine ⟨?_, ?_, ?_⟩ <;> decide

/-- C5 amended: the readout samples each mechanism's orientation every
frame and decodes with the fixed +5° threshold as a pure function of the
current frame's angles alone — identical current angles give identical
readouts whatever the preceding frames were. -/
theorem readout_pure_function_of_angle (prior₁ prior₂ : List (List ℚ)) (cur : List ℚ) :
    (readoutTrace (prior₁ ++ [cur])).getLast? = some (binary_val cur) ∧
    (readoutTrace (prior₁ ++ [cur])).getLast?
      = (readoutTrace (prior₂ ++ [cur])).getLast? := by
  constructor <;> simp [readoutTrace, List.map_append, List.getLast?_concat]

/-- C6: the centre of gravity of every mechanism body is `(0, −20)`: on the
tail axis, strictly between the crossbar junction `(0, 0)` and the tail tip
`(0, −85)` (i.e. offset along the tail toward the tip), and distinct from
the geometric centroid `(0, −110039/4737)` of the compound shape. -/
theorem center_of_gravity_offset (pos : ℚ × ℚ) :
    (create_counter_mechanism pos).center_of_gravity = (0, -20) ∧
    (create_counter_mechanism pos).center_of_gravity.1 = 0 ∧
    (-85 < (create_counter_mechanism pos).center_of_gravity.2 ∧
      (create_counter_mechanism pos).center_of_gravity.2 < 0) ∧
    compoundCentroid (create_counter_mechanism pos).shapes
      = (0, -110039 / 4737) ∧
    (create_counter_mechanism pos).center_of_gravity
      ≠ compoundCentroid (create_counter_mechanism pos).shapes := by
  have hcent : compoundCentroid (create_counter_mechanism pos).shapes
      = ((0 : ℚ), (-110039 : ℚ) / 4737) := by
    show compoundCentroid [h_bar_pts, v_bar_pts, tip_pts, slope_l_pts, slope_r_pts] = _
    norm_num [compoundCentroid, polyCentroid, polyArea2, polyEdges, absQ,
      h_bar_pts, v_bar_pts, tip_pts, slope_l_pts, slope_r_pts]
  refine ⟨rfl, rfl, ⟨?_, ?_⟩, hcent, ?_⟩
  · show (-85 : ℚ) < -20
    norm_num
  · show (-20 : ℚ) < 0
    norm_num
  · rw [show (create_counter_mechanism pos).center_of_gravity
        = ((0 : ℚ), (-20 : ℚ)) from rfl, hcent]
    intro h
    have h2 := congrArg Prod.snd h
    norm_num at h2

/-- C7: `spawn_marble` adds exactly one marble body, and over any sequence
of run-loop iterations whose physics updates preserve the set of bodies
(the engine moves bodies, it does not create or destroy them), the marble
count is unchanged — in particular monotonically non-decreasing. -/
theorem marble_count_monotone
    (steps : List (ℕ × (List (ℚ × ℚ) → List (ℚ × ℚ))))
    (hsteps : ∀ e ∈ steps, ∀ l : List (ℚ × ℚ), (e.2 l).length = l.length)
    (w : WorldState) (p : ℚ × ℚ) :
    (spawn_marble w p).marbles.length = w.marbles.length + 1 ∧
    (runLoop steps w).marbles.length = w.marbles.length ∧
    w.marbles.length ≤ (runLoop steps w).marbles.length := by
  have hrun : ∀ (ss : List (ℕ × (List (ℚ × ℚ) → List (ℚ × ℚ)))),
      (∀ e ∈ ss, ∀ l : List (ℚ × ℚ), (e.2 l).length = l.length) →
      ∀ v : WorldState, (runLoop ss v).marbles.length = v.marbles.length := by
    intro ss
    induction ss with
    | nil => intro _ v; rfl
    | cons e rest ih =>
      intro hss v
      show (runLoop rest (runFrame e v)).marbles.length = v.marbles.length
      rw [ih (fun x hx => hss x (List.mem_cons_of_mem _ hx))]
      exact hss e (List.mem_cons_self _ _) v.marbles
  have h2 := hrun steps hsteps w
  exact ⟨by simp [spawn_marble], h2, le_of_eq h2.symm⟩

/-- Witness for C7: one frame with an identity physics update on the
initial world. -/
theorem marble_count_monotone_witness :
    (spawn_marble initWorld (800, 80)).marbles.length
      = initWorld.marbles.length + 1 ∧
    initWorld.marbles.length ≤ (runLoop [(1, id)] initWorld).marbles.length :=
  ⟨(marble_count_monotone [(1, id)] (fun e he l => by
      simp at he; rw [he]; rfl) initWorld (800, 80)).1,
   (marble_count_monotone [(1, id)] (fun e he l => by
      simp at he; rw [he]; rfl) initWorld (800, 80)).2.2⟩

/-- C8: the initial configuration has all four mechanisms at the 0 limit
(−35°) and exactly ten marbles pre-seeded in the tube, stacked vertically
(same x as the tube centreline) above the gate, consecutive spawn positions
26 px apart — more than one marble diameter (24 px). -/
theorem initial_configuration :
    initMechanisms.length = 4 ∧
    (∀ m ∈ initMechanisms, m.angle = -35) ∧
    initWorld.marbles = initMarblePositions ∧
    initMarblePositions.length = 10 ∧
    List.Chain' (fun p q : ℚ × ℚ => p.2 - q.2 = 26) initMarblePositions ∧
    (26 : ℚ) > 2 * marble_radius ∧
    (∀ p ∈ initMarblePositions, p.2 < gate_closed_pos.2 ∧ p.1 = tube_x) := by
  have hlist : initMarblePositions
      = [(800, 80), (800, 54), (800, 28), (800, 2), (800, -24),
         (800, -50), (800, -76), (800, -102), (800, -128), (800, -154)] := by
    norm_num [initMarblePositions, tube_x, WIDTH, List.range_succ]
  refine ⟨rfl, ?_, ?_, ?_, ?_, by norm_num [marble_radius], ?_⟩
  · intro m hm
    simp only [initMechanisms, bits_pos, List.map_cons, List.map_nil,
      List.mem_cons, List.not_mem_nil, or_false] at hm
    rcases hm with rfl | rfl | rfl | rfl <;> rfl
  · show (initMarblePositions.foldl spawn_marble _).marbles = _
    rw [spawn_foldl]
    rfl
  · rw [hlist]; rfl
  · rw [hlist]
    norm_num [List.chain'_cons]
  · intro pp hp
    rw [hlist] at hp
    fin_cases hp <;>
      exact ⟨by norm_num [gate_closed_pos, tube_x, WIDTH],
             by norm_num [tube_x, WIDTH]⟩

/-- Witness for C8 at the first mechanism and the first marble. -/
theorem initial_configuration_witness :
    ({ create_counter_mechanism (820, 220) with angle := -35 } : Mechanism).angle = -35 ∧
    ((800 : ℚ), (80 : ℚ)).2 < gate_closed_pos.2 :=
  ⟨initial_configuration.2.1 _ (by
      simp only [initMechanisms, bits_pos, List.map_cons, List.mem_cons]
      left
      norm_num [WIDTH]),
   (initial_configuration.2.2.2.2.2.2 (800, 80) (by
      have h0 : ((800 : ℚ), (80 : ℚ)) = (tube_x, 80 - ((0 : ℕ) : ℚ) * 26) := by
        norm_num [tube_x, WIDTH]
      rw [h0]
      show _ ∈ (List.range 10).map (fun i : ℕ => ((tube_x, 80 - (i : ℚ) * 26) : ℚ × ℚ))
      exact List.mem_map_of_mem _ (show (0 : ℕ) ∈ List.range 10 by simp))).1⟩

/-- C9: the launch counter `total_marbles_launched` is incremented by
exactly one on every SPACE press — whatever the gate state, open included —
the timer step never changes it, and it is monotonically non-decreasing
over any run. -/
theorem launch_count_monotone (s : GateState) (frames : List ℕ) :
    (pressSpace s).total_marbles_launched = s.total_marbles_launched + 1 ∧
    (gateTick s).total_marbles_launched = s.total_marbles_launched ∧
    s.total_marbles_launched ≤ (gateRun frames s).total_marbles_launched :=
  ⟨rfl, gateTick_total s, gateRun_total_mono frames s⟩

/-- C10: over every sequence of run-loop iterations from the initial state
(any number of SPACE presses each frame followed by the timer step), the
gate timer stays within 0 ≤ gate_timer ≤ 15; in particular it never goes
negative. -/
theorem gate_timer_bounded (frames : List ℕ) :
    0 ≤ (gateRun frames initGate).gate_timer ∧
    (gateRun frames initGate).gate_timer ≤ 15 := by
  suffices h : ∀ s, timerInv s → timerInv (gateRun frames s) from
    h initGate ⟨by decide, by decide⟩
  induction frames with
  | nil => exact fun s hs => hs
  | cons n rest ih =>
    intro s hs
    simp only [gateRun, List.foldl_cons] at *
    exact ih _ (timerInv_tick _ (timerInv_iterate n s hs))

end MarbleCounter
